import Mathlib

/-! url-fetcher: the snapshot refresh and the fan-out of one cycle.

A shallow embedding of `src/main.go`: `fetchURLs`, the closure `updateURLs`
(the snapshot manager) and the body of the ticker loop up to the point where
the probe goroutines have been started.

* The held snapshot `currentURLs` is threaded through explicitly.
* The backing store is represented by what it answers to the single query
  `SELECT id, url FROM urls` at the moment of the call (`DB`).
* A Go `map[int]string` is a list of entries with at most one entry per key.
* A Go `int` id is an `Int`: ids are only compared, never computed with.
* Every `log.Print*` call is recorded as a `LogEvent` and every assignment
  `currentURLs = urls` is recorded in the flag `assigned`.
-/

namespace URLFetcher

/-- One row of the table: `type URLData struct { ID int; URL string }`. -/
structure URLData where
  ID : Int
  URL : String
deriving DecidableEq, Repr

/-- What `rows` yields: for every `rows.Next()` that returned true the outcome
of `rows.Scan`, and the value of `rows.Err()` once `Next` has returned false. -/
structure Rows where
  scans : List (Except String URLData)
  err : Option String

/-- The answer of the store to `db.Query("SELECT id, url FROM urls")`. -/
structure DB where
  query : Except String Rows

/-- The loop `for rows.Next() { ... Scan ...; urls = append(urls, urlData) }`
of `fetchURLs`, with the early return on a failed `Scan`. -/
def scanRows : List (Except String URLData) → List URLData → Except String (List URLData)
  | [], urls => .ok urls
  | .error e :: _, _ => .error ("ไม่สามารถอ่านข้อมูลได้: " ++ e)
  | .ok urlData :: rest, urls => scanRows rest (urls ++ [urlData])

/-- The function `fetchURLs` of `src/main.go`. -/
def fetchURLs (db : DB) : Except String (List URLData) :=
  match db.query with
  | .error e => .error ("ไม่สามารถค้นหาข้อมูลได้: " ++ e)
  | .ok rows =>
    match scanRows rows.scans [] with
    | .error e => .error e
    | .ok urls =>
      match rows.err with
      | some e => .error ("เกิดข้อผิดพลาดระหว่างการอ่านข้อมูล: " ++ e)
      | none => .ok urls

/-- A Go `map[int]string`: entries with pairwise distinct keys. -/
abbrev GoMap := List (Int × String)

/-- The assignment `m[k] = v`: the entry for `k` is overwritten. -/
def GoMap.set (m : GoMap) (k : Int) (v : String) : GoMap :=
  (k, v) :: m.filter (fun e => e.1 ≠ k)

/-- The lookup `v, exists := m[k]`. -/
def GoMap.get (m : GoMap) (k : Int) : Option String :=
  (m.find? (fun e => e.1 = k)).map (fun e => e.2)

/-- The map built by
`urlMap := make(map[int]string); for _, url := range currentURLs { urlMap[url.ID] = url.URL }`. -/
def urlMap (currentURLs : List URLData) : GoMap :=
  currentURLs.foldl (fun m url => m.set url.ID url.URL) []

/-- The loop that computes `hasChanges`: the first new target whose id is not
in the map, or is stored with another address, sets the flag and breaks. -/
def hasChanges (m : GoMap) : List URLData → Bool
  | [] => false
  | url :: rest =>
    match m.get url.ID with
    | none => true
    | some storedURL => if storedURL ≠ url.URL then true else hasChanges m rest

/-- The calls to `log` made by `updateURLs` and by the ticker loop. -/
inductive LogEvent where
  | fetchError (msg : String)
  | noURLs
  | countChanged (old new : Nat)
  | dataChanged
  | noURLsWaiting
  | startRequests (urlCount : Nat)
deriving DecidableEq, Repr

/-- The effect of one call of `updateURLs`: the value of `currentURLs` when it
returns, whether the assignment `currentURLs = urls` was executed, and what
was logged. -/
structure Refresh where
  currentURLs : List URLData
  assigned : Bool
  logs : List LogEvent
deriving DecidableEq, Repr

/-- The closure `updateURLs` of `main`, with the captured `currentURLs` as an
argument. -/
def updateURLs (db : DB) (currentURLs : List URLData) : Refresh :=
  match fetchURLs db with
  | .error e => ⟨currentURLs, false, [.fetchError e]⟩
  | .ok urls =>
    if urls.length = 0 then
      ⟨currentURLs, false, [.noURLs]⟩
    else if currentURLs.length ≠ urls.length then
      ⟨urls, true, [.countChanged currentURLs.length urls.length]⟩
    else if hasChanges (urlMap currentURLs) urls then
      ⟨urls, true, [.dataChanged]⟩
    else
      ⟨currentURLs, false, []⟩

/-- One started goroutine `go func(id int, url string) { ... requestURL(client, id, url) }`. -/
structure ProbeCall where
  id : Int
  url : String
deriving DecidableEq, Repr

/-- The effect of one iteration of `for range ticker.C` up to the end of the
fan-out: the snapshot, the goroutines started in order, and the log. -/
structure Cycle where
  currentURLs : List URLData
  launched : List ProbeCall
  logs : List LogEvent
deriving DecidableEq, Repr

/-- The body of the ticker loop: refresh, read `urlCount`, `continue` when it
is zero, otherwise start one goroutine per element of `currentURLs`. -/
def cycle (db : DB) (currentURLs : List URLData) : Cycle :=
  let r := updateURLs db currentURLs
  let urlCount := r.currentURLs.length
  if urlCount = 0 then
    ⟨r.currentURLs, [], r.logs ++ [.noURLsWaiting]⟩
  else
    ⟨r.currentURLs, r.currentURLs.map (fun urlData => ProbeCall.mk urlData.ID urlData.URL),
      r.logs ++ [.startRequests urlCount]⟩

/-- The snapshot after a finite sequence of refreshes, one per answer of the store. -/
def refreshes (currentURLs : List URLData) (dbs : List DB) : List URLData :=
  dbs.foldl (fun cur db => (updateURLs db cur).currentURLs) currentURLs

/-- The snapshot after a finite sequence of ticker iterations. -/
def cycles (currentURLs : List URLData) (dbs : List DB) : List URLData :=
  dbs.foldl (fun cur db => (cycle db cur).currentURLs) currentURLs

/-- A store that answers the query with the given rows and no error. -/
def dbOf (urls : List URLData) : DB :=
  ⟨.ok ⟨urls.map .ok, none⟩⟩

/-- A store whose query fails. -/
def dbDown : DB :=
  ⟨.error "connection refused"⟩

/-- No two targets of the sequence have the same id and different addresses. -/
def NoConflict (urls : List URLData) : Prop :=
  ∀ s ∈ urls, ∀ t ∈ urls, s.ID = t.ID → s.URL = t.URL

/-- The ids within the sequence are pairwise distinct. -/
def DistinctIDs (urls : List URLData) : Prop :=
  (urls.map (fun u => u.ID)).Nodup

/-- The two sequences give the same id to address mapping: every id is looked
up with the same result in the maps built from them. -/
def SameMapping (a b : List URLData) : Prop :=
  ∀ k : Int, (urlMap a).get k = (urlMap b).get k

/-- The refresh replaced the snapshot with `b`: the assignment
`currentURLs = urls` was executed and the snapshot is `b` afterwards. -/
def replacedWith (r : Refresh) (b : List URLData) : Prop :=
  r.assigned = true ∧ r.currentURLs = b

instance (r : Refresh) (b : List URLData) : Decidable (replacedWith r b) :=
  inferInstanceAs (Decidable (r.assigned = true ∧ r.currentURLs = b))

/-! ## The map -/

theorem GoMap.find_filter (m : GoMap) (k k' : Int) (h : ¬ k' = k) :
    List.find? (fun e => decide (e.1 = k')) (List.filter (fun e => decide (e.1 ≠ k)) m) =
      List.find? (fun e => decide (e.1 = k')) m := by
  induction m with
  | nil => rfl
  | cons e m ih =>
    by_cases he : e.1 = k
    · have hk : ¬ e.1 = k' := fun e' => h (e'.symm.trans he)
      rw [List.filter_cons_of_neg (by simpa using he),
        List.find?_cons_of_neg _ (by simpa using hk)]
      exact ih
    · rw [List.filter_cons_of_pos (by simpa using he)]
      by_cases hk : e.1 = k'
      · rw [List.find?_cons_of_pos _ (by simpa using hk),
          List.find?_cons_of_pos _ (by simpa using hk)]
      · rw [List.find?_cons_of_neg _ (by simpa using hk),
          List.find?_cons_of_neg _ (by simpa using hk)]
        exact ih

theorem GoMap.get_set (m : GoMap) (k k' : Int) (v : String) :
    (m.set k v).get k' = if k' = k then some v else m.get k' := by
  unfold GoMap.set GoMap.get
  by_cases h : k' = k
  · subst h
    simp [List.find?]
  · have h' : ¬ k = k' := fun e => h e.symm
    rw [List.find?_cons_of_neg _ (by simpa using h'), GoMap.find_filter m k k' h, if_neg h]

theorem urlMap_append (a : List URLData) (u : URLData) :
    urlMap (a ++ [u]) = (urlMap a).set u.ID u.URL := by
  simp [urlMap, List.foldl_append]

theorem urlMap_get_append (a : List URLData) (u : URLData) (k : Int) :
    (urlMap (a ++ [u])).get k = if k = u.ID then some u.URL else (urlMap a).get k := by
  rw [urlMap_append, GoMap.get_set]

theorem urlMap_get_nil (k : Int) : (urlMap []).get k = none := rfl

/-- Whatever the map holds for an id is the address of a target with that id. -/
theorem urlMap_get_mem (a : List URLData) (k : Int) (v : String)
    (h : (urlMap a).get k = some v) : (⟨k, v⟩ : URLData) ∈ a := by
  induction a using List.reverseRecOn with
  | nil => simp [urlMap_get_nil] at h
  | append_singleton a u ih =>
    rw [urlMap_get_append] at h
    by_cases hk : k = u.ID
    · simp only [hk, if_true, Option.some.injEq] at h
      subst hk
      subst h
      simp
    · simp only [hk, if_false] at h
      exact List.mem_append_left _ (ih h)

/-- An id is missing from the map exactly when no target has it. -/
theorem urlMap_get_none (a : List URLData) (k : Int) :
    (urlMap a).get k = none ↔ k ∉ a.map (fun u => u.ID) := by
  induction a using List.reverseRecOn with
  | nil => simp [urlMap_get_nil]
  | append_singleton a u ih =>
    rw [urlMap_get_append]
    by_cases hk : k = u.ID
    · simp [hk]
    · simp only [hk, if_false, ih]
      simp [hk]

/-- Without conflicting duplicates the map holds every target of the sequence. -/
theorem urlMap_get_of_mem (a : List URLData) (hc : NoConflict a) (t : URLData) (ht : t ∈ a) :
    (urlMap a).get t.ID = some t.URL := by
  cases hg : (urlMap a).get t.ID with
  | none =>
    exact absurd (List.mem_map_of_mem (fun u => u.ID) ht) ((urlMap_get_none a t.ID).1 hg)
  | some v =>
    have hm := urlMap_get_mem a t.ID v hg
    have := hc _ hm t ht rfl
    simp only at this
    rw [this]

theorem urlMap_get_iff (a : List URLData) (hc : NoConflict a) (t : URLData) :
    (urlMap a).get t.ID = some t.URL ↔ t ∈ a := by
  constructor
  · intro h
    exact urlMap_get_mem a t.ID t.URL h
  · exact urlMap_get_of_mem a hc t

theorem DistinctIDs.noConflict {a : List URLData} (h : DistinctIDs a) : NoConflict a := by
  intro s hs t ht hst
  have := List.inj_on_of_nodup_map h hs ht hst
  rw [this]

theorem DistinctIDs.nodup {a : List URLData} (h : DistinctIDs a) : a.Nodup :=
  List.Nodup.of_map _ h

/-! ## The comparison loop -/

theorem hasChanges_iff (m : GoMap) (urls : List URLData) :
    hasChanges m urls = true ↔ ∃ t ∈ urls, m.get t.ID ≠ some t.URL := by
  induction urls with
  | nil => simp [hasChanges]
  | cons u rest ih =>
    unfold hasChanges
    cases hg : m.get u.ID with
    | none => simp [hg]
    | some stored =>
      by_cases hs : stored = u.URL
      · simp [hs, ih, hg]
      · simp [hs, hg]

theorem hasChanges_false_iff (m : GoMap) (urls : List URLData) :
    hasChanges m urls = false ↔ ∀ t ∈ urls, m.get t.ID = some t.URL := by
  rw [← Bool.not_eq_true, hasChanges_iff]
  push_neg
  rfl

/-! ## Reading the store -/

theorem scanRows_ok (urls acc : List URLData) :
    scanRows (urls.map .ok) acc = .ok (acc ++ urls) := by
  induction urls generalizing acc with
  | nil => simp [scanRows]
  | cons u rest ih => simp [scanRows, ih]

theorem fetchURLs_dbOf (urls : List URLData) : fetchURLs (dbOf urls) = .ok urls := by
  simp [fetchURLs, dbOf, scanRows_ok]

theorem fetchURLs_dbDown : ∃ e, fetchURLs dbDown = .error e := ⟨_, rfl⟩

/-! ## The refresh, case by case -/

theorem updateURLs_error (db : DB) (a : List URLData) (e : String)
    (h : fetchURLs db = .error e) : updateURLs db a = ⟨a, false, [.fetchError e]⟩ := by
  simp [updateURLs, h]

theorem updateURLs_empty (db : DB) (a : List URLData) (h : fetchURLs db = .ok []) :
    updateURLs db a = ⟨a, false, [.noURLs]⟩ := by
  simp [updateURLs, h]

theorem updateURLs_count (db : DB) (a b : List URLData) (h : fetchURLs db = .ok b)
    (hb : b ≠ []) (hl : a.length ≠ b.length) :
    updateURLs db a = ⟨b, true, [.countChanged a.length b.length]⟩ := by
  have hb' : ¬ b.length = 0 := fun h0 => hb (List.length_eq_zero.1 h0)
  simp [updateURLs, h, hb, hl]

theorem updateURLs_changed (db : DB) (a b : List URLData) (h : fetchURLs db = .ok b)
    (hb : b ≠ []) (hl : a.length = b.length) (hc : hasChanges (urlMap a) b = true) :
    updateURLs db a = ⟨b, true, [.dataChanged]⟩ := by
  simp [updateURLs, h, hb, hl, hc]

theorem updateURLs_same (db : DB) (a b : List URLData) (h : fetchURLs db = .ok b)
    (hb : b ≠ []) (hl : a.length = b.length) (hc : hasChanges (urlMap a) b = false) :
    updateURLs db a = ⟨a, false, []⟩ := by
  simp [updateURLs, h, hb, hl, hc]

/-- The assignment is executed exactly when the load is non-empty and either
the counts differ or the comparison loop finds a change. -/
theorem updateURLs_assigned_iff (db : DB) (a b : List URLData) (h : fetchURLs db = .ok b) :
    (updateURLs db a).assigned = true ↔
      b ≠ [] ∧ (a.length ≠ b.length ∨ hasChanges (urlMap a) b = true) := by
  by_cases hb : b = []
  · subst hb
    simp [updateURLs_empty db a h]
  · by_cases hl : a.length = b.length
    · cases hc : hasChanges (urlMap a) b with
      | true => simp [updateURLs_changed db a b h hb hl hc, hb]
      | false => simp [updateURLs_same db a b h hb hl hc, hl]
    · simp [updateURLs_count db a b h hb hl, hb, hl]

/-- An executed assignment stores the loaded sequence. -/
theorem updateURLs_assigned_snapshot (db : DB) (a b : List URLData) (h : fetchURLs db = .ok b)
    (hs : (updateURLs db a).assigned = true) : (updateURLs db a).currentURLs = b := by
  by_cases hb : b = []
  · subst hb
    simp [updateURLs_empty db a h] at hs
  · by_cases hl : a.length = b.length
    · cases hc : hasChanges (urlMap a) b with
      | true => simp [updateURLs_changed db a b h hb hl hc]
      | false => simp [updateURLs_same db a b h hb hl hc] at hs
    · simp [updateURLs_count db a b h hb hl]

/-- Without an assignment the snapshot is the held one. -/
theorem updateURLs_not_assigned_snapshot (db : DB) (a : List URLData)
    (hs : (updateURLs db a).assigned = false) : (updateURLs db a).currentURLs = a := by
  unfold updateURLs at hs ⊢
  split
  · rfl
  · split_ifs at hs ⊢ <;> simp_all

theorem replacedWith_iff (db : DB) (a b : List URLData) (h : fetchURLs db = .ok b) :
    replacedWith (updateURLs db a) b ↔
      b ≠ [] ∧ (a.length ≠ b.length ∨ hasChanges (urlMap a) b = true) := by
  rw [← updateURLs_assigned_iff db a b h]
  constructor
  · exact fun hr => hr.1
  · exact fun hs => ⟨hs, updateURLs_assigned_snapshot db a b h hs⟩

/-! ## Counting ids -/

theorem perm_of_covered {α : Type} (l₁ l₂ : List α) (hn : l₁.Nodup) (hs : l₁ ⊆ l₂)
    (hl : l₂.length ≤ l₁.length) : l₁.Perm l₂ := by
  classical
  exact (List.subperm_of_subset hn hs).perm_of_length_le hl

/-- When every new target is found in the map of a held sequence of the same
length and the new ids are pairwise distinct, both sequences have the same ids. -/
theorem ids_perm_of_unchanged (a b : List URLData) (hd : DistinctIDs b)
    (hl : a.length = b.length) (hc : hasChanges (urlMap a) b = false) :
    (b.map (fun u => u.ID)).Perm (a.map (fun u => u.ID)) := by
  rw [hasChanges_false_iff] at hc
  apply perm_of_covered _ _ hd
  · intro k hk
    obtain ⟨t, ht, rfl⟩ := List.mem_map.1 hk
    by_contra hn
    have := (urlMap_get_none a t.ID).2 hn
    rw [hc t ht] at this
    exact Option.noConfusion this
  · simp [hl]

theorem urlMap_get_ne_iff (a : List URLData) (hc : NoConflict a) (t : URLData) :
    (urlMap a).get t.ID ≠ some t.URL ↔
      (t.ID ∉ a.map (fun u => u.ID) ∨ ∃ s ∈ a, s.ID = t.ID ∧ s.URL ≠ t.URL) := by
  constructor
  · intro h
    cases hg : (urlMap a).get t.ID with
    | none => exact Or.inl ((urlMap_get_none a t.ID).1 hg)
    | some v =>
      refine Or.inr ⟨⟨t.ID, v⟩, urlMap_get_mem a t.ID v hg, rfl, ?_⟩
      intro hv
      apply h
      rw [hg]
      exact congrArg some hv
  · rintro (h | ⟨s, hs, hid, hurl⟩) hg
    · have := (urlMap_get_none a t.ID).2 h
      rw [hg] at this
      exact Option.noConfusion this
    · have := urlMap_get_of_mem a hc s hs
      rw [hid, hg] at this
      exact hurl (Option.some.inj this).symm

/-- With pairwise distinct new ids and equal counts, the comparison loop finds
no change exactly when both sequences give the same mapping. -/
theorem unchanged_iff_sameMapping (a b : List URLData) (hd : DistinctIDs b)
    (hl : a.length = b.length) : hasChanges (urlMap a) b = false ↔ SameMapping a b := by
  constructor
  · intro hc k
    have hp := ids_perm_of_unchanged a b hd hl hc
    rw [hasChanges_false_iff] at hc
    by_cases hk : k ∈ b.map (fun u => u.ID)
    · obtain ⟨t, ht, rfl⟩ := List.mem_map.1 hk
      rw [hc t ht, urlMap_get_of_mem b hd.noConflict t ht]
    · have hk' : k ∉ a.map (fun u => u.ID) := fun hm => hk (hp.mem_iff.2 hm)
      rw [(urlMap_get_none a k).2 hk', (urlMap_get_none b k).2 hk]
  · intro hs
    rw [hasChanges_false_iff]
    intro t ht
    rw [hs t.ID]
    exact urlMap_get_of_mem b hd.noConflict t ht

/-! ## C1 -/

/-- C1, the claim as written fails twice: (i) held `[{1,"http://a"}]`, loaded
the empty sequence: the counts differ, yet the snapshot is not replaced;
(ii) held `[{1,"http://a"},{2,"http://b"}]`, loaded `[{1,"http://a"},{1,"http://a"}]`
(a repeated id): the counts are equal and the mappings differ (id 2), yet the
snapshot is not replaced. -/
theorem C1_counterexample :
    ¬ (replacedWith (updateURLs (dbOf []) [⟨1, "http://a"⟩]) [] ↔
        ¬ (([⟨1, "http://a"⟩] : List URLData).length = ([] : List URLData).length ∧
            SameMapping [⟨1, "http://a"⟩] []))
    ∧ fetchURLs (dbOf []) = .ok []
    ∧ ¬ (replacedWith
          (updateURLs (dbOf [⟨1, "http://a"⟩, ⟨1, "http://a"⟩])
            [⟨1, "http://a"⟩, ⟨2, "http://b"⟩])
          [⟨1, "http://a"⟩, ⟨1, "http://a"⟩] ↔
        ¬ (([⟨1, "http://a"⟩, ⟨2, "http://b"⟩] : List URLData).length =
              ([⟨1, "http://a"⟩, ⟨1, "http://a"⟩] : List URLData).length ∧
            SameMapping [⟨1, "http://a"⟩, ⟨2, "http://b"⟩]
              [⟨1, "http://a"⟩, ⟨1, "http://a"⟩]))
    ∧ fetchURLs (dbOf [⟨1, "http://a"⟩, ⟨1, "http://a"⟩])
        = .ok [⟨1, "http://a"⟩, ⟨1, "http://a"⟩] := by
  refine ⟨?_, fetchURLs_dbOf _, ?_, fetchURLs_dbOf _⟩
  · intro h
    have hr := h.2 (fun hc => absurd hc.1 (by decide))
    revert hr
    decide
  · intro h
    have hr := h.2 (fun hc => absurd (hc.2 2) (by decide))
    revert hr
    decide

/-- C1 (amended): for every held sequence A and every loaded sequence B that is
non-empty and whose ids are pairwise distinct, the refresh replaces the
snapshot with B if and only if it is not the case that A and B have the same
length and give the same id to address mapping. -/
theorem C1_change_detection (db : DB) (a b : List URLData) (h : fetchURLs db = .ok b)
    (hb : b ≠ []) (hd : DistinctIDs b) :
    replacedWith (updateURLs db a) b ↔ ¬ (a.length = b.length ∧ SameMapping a b) := by
  rw [replacedWith_iff db a b h]
  by_cases hl : a.length = b.length
  · rw [← unchanged_iff_sameMapping a b hd hl]
    simp [hb, hl]
  · simp [hb, hl]

/-- C1 at held `[{1,"http://a"},{2,"http://b"}]`, loaded `[{2,"http://b"},{1,"http://c"}]`. -/
theorem C1_change_detection_witness :
    fetchURLs (dbOf [⟨2, "http://b"⟩, ⟨1, "http://c"⟩]) = .ok [⟨2, "http://b"⟩, ⟨1, "http://c"⟩]
    ∧ ([⟨2, "http://b"⟩, ⟨1, "http://c"⟩] : List URLData) ≠ []
    ∧ DistinctIDs [⟨2, "http://b"⟩, ⟨1, "http://c"⟩]
    ∧ (replacedWith
        (updateURLs (dbOf [⟨2, "http://b"⟩, ⟨1, "http://c"⟩]) [⟨1, "http://a"⟩, ⟨2, "http://b"⟩])
        [⟨2, "http://b"⟩, ⟨1, "http://c"⟩] ↔
      ¬ (([⟨1, "http://a"⟩, ⟨2, "http://b"⟩] : List URLData).length =
            ([⟨2, "http://b"⟩, ⟨1, "http://c"⟩] : List URLData).length ∧
          SameMapping [⟨1, "http://a"⟩, ⟨2, "http://b"⟩] [⟨2, "http://b"⟩, ⟨1, "http://c"⟩])) :=
  ⟨fetchURLs_dbOf _, by decide, by unfold DistinctIDs; decide,
    C1_change_detection _ _ _ (fetchURLs_dbOf _) (by decide) (by unfold DistinctIDs; decide)⟩

/-! ## C2 -/

/-- With pairwise distinct held ids, the comparison loop finds a change exactly
when some new target is not a held target. -/
theorem hasChanges_iff_not_mem (a b : List URLData) (hc : NoConflict a) :
    hasChanges (urlMap a) b = true ↔ ∃ t ∈ b, t ∉ a := by
  rw [hasChanges_iff]
  constructor
  · rintro ⟨t, ht, hne⟩
    exact ⟨t, ht, fun hm => hne (urlMap_get_of_mem a hc t hm)⟩
  · rintro ⟨t, ht, hnm⟩
    exact ⟨t, ht, fun hg => hnm (urlMap_get_mem a t.ID t.URL hg)⟩

theorem changed_iff_toFinset_ne (a b : List URLData) (ha : DistinctIDs a) (hb : DistinctIDs b) :
    (a.length ≠ b.length ∨ hasChanges (urlMap a) b = true) ↔ a.toFinset ≠ b.toFinset := by
  rw [hasChanges_iff_not_mem a b ha.noConflict]
  constructor
  · rintro (hl | ⟨t, ht, hnm⟩) he
    · exact hl (List.perm_of_nodup_nodup_toFinset_eq ha.nodup hb.nodup he).length_eq
    · have : t ∈ a.toFinset := by
        rw [he]
        exact List.mem_toFinset.2 ht
      exact hnm (List.mem_toFinset.1 this)
  · intro hne
    by_contra hcon
    push_neg at hcon
    obtain ⟨hl, hsub⟩ := hcon
    have hp : b.Perm a := perm_of_covered b a hb.nodup hsub (le_of_eq hl)
    exact hne (List.toFinset_eq_of_perm _ _ hp.symm)

/-- C2: for a non-empty loaded sequence B and pairwise distinct ids within the
held sequence A and within B, the refresh replaces the snapshot with B iff the
counts differ or some target of B has an id absent from A or an address
different from the one A holds for that id; equivalently iff the sets of
(id, address) pairs of A and B differ. Held `[{1,"http://a"}]` with loaded
`[{1,"http://b"}]` is replaced, and held = loaded = `[{1,"http://a"}]` is not. -/
theorem C2_change_detection_distinct_ids (db : DB) (a b : List URLData)
    (h : fetchURLs db = .ok b) (hb : b ≠ []) (hda : DistinctIDs a) (hdb : DistinctIDs b) :
    (replacedWith (updateURLs db a) b ↔
      (a.length ≠ b.length ∨
        ∃ t ∈ b, (t.ID ∉ a.map (fun u => u.ID) ∨ ∃ s ∈ a, s.ID = t.ID ∧ s.URL ≠ t.URL)))
    ∧ (replacedWith (updateURLs db a) b ↔ a.toFinset ≠ b.toFinset)
    ∧ replacedWith (updateURLs (dbOf [⟨1, "http://b"⟩]) [⟨1, "http://a"⟩]) [⟨1, "http://b"⟩]
    ∧ updateURLs (dbOf [⟨1, "http://a"⟩]) [⟨1, "http://a"⟩] = ⟨[⟨1, "http://a"⟩], false, []⟩ := by
  refine ⟨?_, ?_, by decide, by decide⟩
  · rw [replacedWith_iff db a b h, hasChanges_iff]
    simp only [urlMap_get_ne_iff a hda.noConflict]
    simp [hb]
  · rw [replacedWith_iff db a b h, changed_iff_toFinset_ne a b hda hdb]
    simp [hb]

/-- C2 at held `[{1,"http://a"},{2,"http://b"}]`, loaded `[{2,"http://b"},{3,"http://a"}]`. -/
theorem C2_change_detection_distinct_ids_witness :
    (replacedWith
        (updateURLs (dbOf [⟨2, "http://b"⟩, ⟨3, "http://a"⟩]) [⟨1, "http://a"⟩, ⟨2, "http://b"⟩])
        [⟨2, "http://b"⟩, ⟨3, "http://a"⟩] ↔
      (([⟨1, "http://a"⟩, ⟨2, "http://b"⟩] : List URLData).length ≠
          ([⟨2, "http://b"⟩, ⟨3, "http://a"⟩] : List URLData).length ∨
        ∃ t ∈ ([⟨2, "http://b"⟩, ⟨3, "http://a"⟩] : List URLData),
          (t.ID ∉ ([⟨1, "http://a"⟩, ⟨2, "http://b"⟩] : List URLData).map (fun u => u.ID) ∨
            ∃ s ∈ ([⟨1, "http://a"⟩, ⟨2, "http://b"⟩] : List URLData),
              s.ID = t.ID ∧ s.URL ≠ t.URL)))
    ∧ replacedWith
        (updateURLs (dbOf [⟨2, "http://b"⟩, ⟨3, "http://a"⟩]) [⟨1, "http://a"⟩, ⟨2, "http://b"⟩])
        [⟨2, "http://b"⟩, ⟨3, "http://a"⟩] :=
  ⟨(C2_change_detection_distinct_ids (dbOf [⟨2, "http://b"⟩, ⟨3, "http://a"⟩])
      [⟨1, "http://a"⟩, ⟨2, "http://b"⟩] [⟨2, "http://b"⟩, ⟨3, "http://a"⟩]
      (fetchURLs_dbOf _) (by decide) (by unfold DistinctIDs; decide)
      (by unfold DistinctIDs; decide)).1, by decide⟩

/-! ## C3 -/

/-- C3: when the store is read successfully and yields the empty sequence, a
non-empty held snapshot is not replaced: no assignment is executed and the
snapshot after the refresh equals the snapshot before it. -/
theorem C3_empty_read_keeps_snapshot (db : DB) (a : List URLData)
    (h : fetchURLs db = .ok []) (_ha : a ≠ []) :
    (updateURLs db a).currentURLs = a ∧ (updateURLs db a).assigned = false
    ∧ (updateURLs db a).logs = [.noURLs] := by
  simp [updateURLs_empty db a h]

/-- C3 at held `[{1,"http://a"},{2,"http://b"}]`, loaded the empty sequence. -/
theorem C3_empty_read_keeps_snapshot_witness :
    fetchURLs (dbOf []) = .ok []
    ∧ (updateURLs (dbOf []) [⟨1, "http://a"⟩, ⟨2, "http://b"⟩]).currentURLs
        = [⟨1, "http://a"⟩, ⟨2, "http://b"⟩]
    ∧ (updateURLs (dbOf []) [⟨1, "http://a"⟩, ⟨2, "http://b"⟩]).assigned = false
    ∧ (updateURLs (dbOf []) [⟨1, "http://a"⟩, ⟨2, "http://b"⟩]).logs = [.noURLs] :=
  ⟨fetchURLs_dbOf _,
    C3_empty_read_keeps_snapshot (dbOf []) [⟨1, "http://a"⟩, ⟨2, "http://b"⟩]
      (fetchURLs_dbOf _) (by decide)⟩

/-! ## C4 -/

theorem cycle_launched (db : DB) (a : List URLData) :
    (cycle db a).launched
      = (updateURLs db a).currentURLs.map (fun urlData => ProbeCall.mk urlData.ID urlData.URL) := by
  unfold cycle
  by_cases h0 : (updateURLs db a).currentURLs.length = 0
  · simp [h0, List.length_eq_zero.1 h0]
  · simp [h0]

theorem cycle_currentURLs (db : DB) (a : List URLData) :
    (cycle db a).currentURLs = (updateURLs db a).currentURLs := by
  unfold cycle
  by_cases h0 : (updateURLs db a).currentURLs.length = 0
  · simp [h0]
  · simp [h0]

/-- C4: when `fetchURLs` returns an error, the refresh leaves the snapshot as
it was, with no assignment, and the cycle of that refresh starts its probes
for exactly the targets of the old snapshot, in order. -/
theorem C4_store_failure_keeps_snapshot (db : DB) (a : List URLData) (e : String)
    (h : fetchURLs db = .error e) :
    (updateURLs db a).currentURLs = a ∧ (updateURLs db a).assigned = false
    ∧ (cycle db a).currentURLs = a
    ∧ (cycle db a).launched = a.map (fun urlData => ProbeCall.mk urlData.ID urlData.URL) := by
  rw [cycle_launched, cycle_currentURLs]
  simp [updateURLs_error db a e h]

/-- C4 at held `[{1,"http://a"},{2,"http://b"}]` with a failing query. -/
theorem C4_store_failure_keeps_snapshot_witness :
    fetchURLs dbDown = .error "ไม่สามารถค้นหาข้อมูลได้: connection refused"
    ∧ (updateURLs dbDown [⟨1, "http://a"⟩, ⟨2, "http://b"⟩]).currentURLs
        = [⟨1, "http://a"⟩, ⟨2, "http://b"⟩]
    ∧ (cycle dbDown [⟨1, "http://a"⟩, ⟨2, "http://b"⟩]).launched
        = [⟨1, "http://a"⟩, ⟨2, "http://b"⟩] :=
  have h := C4_store_failure_keeps_snapshot dbDown [⟨1, "http://a"⟩, ⟨2, "http://b"⟩] _
    (show fetchURLs dbDown = .error "ไม่สามารถค้นหาข้อมูลได้: connection refused" from rfl)
  ⟨rfl, h.1, h.2.2.2⟩

/-! ## C5 -/

/-- C5: a non-empty loaded sequence whose length differs from that of the held
snapshot becomes the snapshot, element for element and in the same order,
whatever the two sequences contain; in particular every non-empty load
replaces the initial empty snapshot. -/
theorem C5_count_change_replaces (db : DB) (a b : List URLData) (h : fetchURLs db = .ok b)
    (hb : b ≠ []) (hl : b.length ≠ a.length) :
    (updateURLs db a).currentURLs = b ∧ (updateURLs db a).assigned = true
    ∧ (updateURLs db []).currentURLs = b := by
  have hl' : a.length ≠ b.length := fun e => hl e.symm
  have h0 : ([] : List URLData).length ≠ b.length := by
    intro e
    exact hb (List.length_eq_zero.1 e.symm)
  simp [updateURLs_count db a b h hb hl', updateURLs_count db [] b h hb h0]

/-- C5 at held `[{1,"http://a"}]`, loaded `[{1,"http://a"},{2,"http://b"}]`. -/
theorem C5_count_change_replaces_witness :
    fetchURLs (dbOf [⟨1, "http://a"⟩, ⟨2, "http://b"⟩])
        = .ok [⟨1, "http://a"⟩, ⟨2, "http://b"⟩]
    ∧ (updateURLs (dbOf [⟨1, "http://a"⟩, ⟨2, "http://b"⟩]) [⟨1, "http://a"⟩]).currentURLs
        = [⟨1, "http://a"⟩, ⟨2, "http://b"⟩] :=
  ⟨fetchURLs_dbOf _,
    (C5_count_change_replaces (dbOf [⟨1, "http://a"⟩, ⟨2, "http://b"⟩]) [⟨1, "http://a"⟩]
      [⟨1, "http://a"⟩, ⟨2, "http://b"⟩] (fetchURLs_dbOf _) (by decide) (by decide)).1⟩

/-! ## C6 -/

theorem hasChanges_self (b : List URLData) (hc : NoConflict b) :
    hasChanges (urlMap b) b = false := by
  rw [hasChanges_false_iff]
  exact fun t ht => urlMap_get_of_mem b hc t ht

/-- A refresh whose load equals the held snapshot and has no conflicting
duplicate ids changes nothing. -/
theorem updateURLs_self (db : DB) (b : List URLData) (h : fetchURLs db = .ok b)
    (hc : NoConflict b) :
    (updateURLs db b).assigned = false ∧ (updateURLs db b).currentURLs = b := by
  by_cases hb : b = []
  · subst hb
    simp [updateURLs_empty db [] h]
  · simp [updateURLs_same db b b h hb rfl (hasChanges_self b hc)]

/-- C6, the claim as written fails: the store answers twice with
`[{1,"http://a"},{1,"http://b"}]` (one id with two addresses), the held
snapshot is empty. The first refresh stores the load; the second compares the
load with itself, finds `{1,"http://a"}` stored as `"http://b"` and executes
the assignment again. -/
theorem C6_counterexample :
    fetchURLs (dbOf [⟨1, "http://a"⟩, ⟨1, "http://b"⟩])
        = .ok [⟨1, "http://a"⟩, ⟨1, "http://b"⟩]
    ∧ (updateURLs (dbOf [⟨1, "http://a"⟩, ⟨1, "http://b"⟩])
          (updateURLs (dbOf [⟨1, "http://a"⟩, ⟨1, "http://b"⟩]) []).currentURLs).assigned = true
    ∧ ¬ ((updateURLs (dbOf [⟨1, "http://a"⟩, ⟨1, "http://b"⟩])
            (updateURLs (dbOf [⟨1, "http://a"⟩, ⟨1, "http://b"⟩]) []).currentURLs).assigned = false
        ∧ (updateURLs (dbOf [⟨1, "http://a"⟩, ⟨1, "http://b"⟩])
            (updateURLs (dbOf [⟨1, "http://a"⟩, ⟨1, "http://b"⟩]) []).currentURLs).currentURLs
          = (updateURLs (dbOf [⟨1, "http://a"⟩, ⟨1, "http://b"⟩]) []).currentURLs) :=
  ⟨fetchURLs_dbOf _, by decide, by decide⟩

/-- C6 (amended): for every held snapshot A and every load result (error,
empty, or a sequence B in which no two targets have the same id and different
addresses), two refreshes in a row with that same result make the second a
no-op: it executes no assignment and the snapshot after it equals the
snapshot after the first. -/
theorem C6_second_refresh_noop (db : DB) (a : List URLData)
    (hc : ∀ b, fetchURLs db = .ok b → NoConflict b) :
    (updateURLs db (updateURLs db a).currentURLs).assigned = false
    ∧ (updateURLs db (updateURLs db a).currentURLs).currentURLs
        = (updateURLs db a).currentURLs := by
  cases hf : fetchURLs db with
  | error e => simp [updateURLs_error db _ e hf]
  | ok b =>
    cases hs : (updateURLs db a).assigned with
    | true =>
      rw [updateURLs_assigned_snapshot db a b hf hs]
      exact updateURLs_self db b hf (hc b hf)
    | false =>
      rw [updateURLs_not_assigned_snapshot db a hs]
      exact ⟨hs, updateURLs_not_assigned_snapshot db a hs⟩

/-- C6 at held `[{1,"http://a"}]`, loaded twice `[{1,"http://b"},{2,"http://c"}]`. -/
theorem C6_second_refresh_noop_witness :
    (∀ b, fetchURLs (dbOf [⟨1, "http://b"⟩, ⟨2, "http://c"⟩]) = .ok b → NoConflict b)
    ∧ (updateURLs (dbOf [⟨1, "http://b"⟩, ⟨2, "http://c"⟩]) [⟨1, "http://a"⟩]).assigned = true
    ∧ (updateURLs (dbOf [⟨1, "http://b"⟩, ⟨2, "http://c"⟩])
        (updateURLs (dbOf [⟨1, "http://b"⟩, ⟨2, "http://c"⟩])
          [⟨1, "http://a"⟩]).currentURLs).assigned = false :=
  have hc : ∀ b, fetchURLs (dbOf [⟨1, "http://b"⟩, ⟨2, "http://c"⟩]) = .ok b → NoConflict b := by
    intro b hb
    rw [fetchURLs_dbOf] at hb
    cases hb
    exact DistinctIDs.noConflict (by unfold DistinctIDs; decide)
  ⟨hc, by decide,
    (C6_second_refresh_noop (dbOf [⟨1, "http://b"⟩, ⟨2, "http://c"⟩]) [⟨1, "http://a"⟩] hc).1⟩

/-! ## C7 -/

theorem noConflict_of_perm {a a' : List URLData} (hc : NoConflict a) (hp : a.Perm a') :
    NoConflict a' :=
  fun s hs t ht => hc s (hp.mem_iff.2 hs) t (hp.mem_iff.2 ht)

theorem distinctIDs_of_perm {a a' : List URLData} (hd : DistinctIDs a) (hp : a.Perm a') :
    DistinctIDs a' := by
  unfold DistinctIDs at hd ⊢
  exact ((hp.map (fun u => u.ID)).nodup_iff).1 hd

/-- When the held ids repeat, the new ids do not and the counts are equal, some
new id is missing from the map: the comparison loop finds a change. -/
theorem hasChanges_of_repeated_id (a b : List URLData) (hb : DistinctIDs b)
    (ha : ¬ DistinctIDs a) (hl : a.length = b.length) : hasChanges (urlMap a) b = true := by
  cases hc : hasChanges (urlMap a) b with
  | true => rfl
  | false =>
    have hp := ids_perm_of_unchanged a b hb hl hc
    exact absurd ((hp.nodup_iff).1 hb) ha

theorem hasChanges_perm (a a' b b' : List URLData) (hpa : a.Perm a') (hpb : b.Perm b')
    (hl : a.length = b.length) (hyp : NoConflict a ∨ DistinctIDs b) :
    hasChanges (urlMap a) b = true ↔ hasChanges (urlMap a') b' = true := by
  have key : ∀ (hc : NoConflict a),
      (hasChanges (urlMap a) b = true ↔ hasChanges (urlMap a') b' = true) := by
    intro hc
    rw [hasChanges_iff_not_mem a b hc, hasChanges_iff_not_mem a' b' (noConflict_of_perm hc hpa)]
    constructor
    · rintro ⟨t, ht, hn⟩
      exact ⟨t, hpb.mem_iff.1 ht, fun hm => hn (hpa.mem_iff.2 hm)⟩
    · rintro ⟨t, ht, hn⟩
      exact ⟨t, hpb.mem_iff.2 ht, fun hm => hn (hpa.mem_iff.1 hm)⟩
  rcases hyp with hc | hd
  · exact key hc
  · by_cases hda : DistinctIDs a
    · exact key hda.noConflict
    · have hda' : ¬ DistinctIDs a' := fun h => hda (distinctIDs_of_perm h hpa.symm)
      have hl' : a'.length = b'.length := by
        rw [← hpa.length_eq, ← hpb.length_eq, hl]
      rw [hasChanges_of_repeated_id a b hd hda hl,
        hasChanges_of_repeated_id a' b' (distinctIDs_of_perm hd hpb) hda' hl']

/-- C7, the claim as written fails: held `[{1,"http://a"},{1,"http://b"}]` and
its reordering `[{1,"http://b"},{1,"http://a"}]`, loaded
`[{1,"http://b"},{1,"http://b"}]` both times. The map of the first order holds
`1 ↦ "http://b"` and nothing is replaced; the map of the second order holds
`1 ↦ "http://a"` and the snapshot is replaced. -/
theorem C7_counterexample :
    ([⟨1, "http://a"⟩, ⟨1, "http://b"⟩] : List URLData).Perm [⟨1, "http://b"⟩, ⟨1, "http://a"⟩]
    ∧ fetchURLs (dbOf [⟨1, "http://b"⟩, ⟨1, "http://b"⟩])
        = .ok [⟨1, "http://b"⟩, ⟨1, "http://b"⟩]
    ∧ (updateURLs (dbOf [⟨1, "http://b"⟩, ⟨1, "http://b"⟩])
        [⟨1, "http://a"⟩, ⟨1, "http://b"⟩]).assigned = false
    ∧ (updateURLs (dbOf [⟨1, "http://b"⟩, ⟨1, "http://b"⟩])
        [⟨1, "http://b"⟩, ⟨1, "http://a"⟩]).assigned = true
    ∧ ¬ ((updateURLs (dbOf [⟨1, "http://b"⟩, ⟨1, "http://b"⟩])
            [⟨1, "http://a"⟩, ⟨1, "http://b"⟩]).assigned = true ↔
          (updateURLs (dbOf [⟨1, "http://b"⟩, ⟨1, "http://b"⟩])
            [⟨1, "http://b"⟩, ⟨1, "http://a"⟩]).assigned = true) :=
  ⟨List.Perm.swap _ _ _, fetchURLs_dbOf _, by decide, by decide, by decide⟩

/-- C7 (amended): for every held sequence A and loaded sequence B such that no
two targets of A have the same id and different addresses, or the ids within
B are pairwise distinct, and for every reordering A' of A and B' of B, the
refresh replaces the snapshot for (A, B) if and only if it replaces it for
(A', B'). -/
theorem C7_order_independent (db db' : DB) (a a' b b' : List URLData)
    (h : fetchURLs db = .ok b) (h' : fetchURLs db' = .ok b')
    (hpa : a.Perm a') (hpb : b.Perm b') (hyp : NoConflict a ∨ DistinctIDs b) :
    (updateURLs db a).assigned = true ↔ (updateURLs db' a').assigned = true := by
  rw [updateURLs_assigned_iff db a b h, updateURLs_assigned_iff db' a' b' h']
  have hne : b ≠ [] ↔ b' ≠ [] := by
    constructor
    · intro hb e
      subst e
      exact hb hpb.eq_nil
    · intro hb e
      subst e
      exact hb hpb.symm.eq_nil
  by_cases hl : a.length = b.length
  · have hl' : a'.length = b'.length := by
      rw [← hpa.length_eq, ← hpb.length_eq, hl]
    rw [hne, hasChanges_perm a a' b b' hpa hpb hl hyp]
    simp [hl, hl']
  · have hl' : ¬ a'.length = b'.length := by
      rw [← hpa.length_eq, ← hpb.length_eq]
      exact hl
    rw [hne]
    simp [hl, hl']

/-- C7 at held `[{1,"http://a"},{2,"http://b"}]`, loaded
`[{2,"http://b"},{1,"http://a"}]`, and both sequences with their elements swapped. -/
theorem C7_order_independent_witness :
    (NoConflict [⟨1, "http://a"⟩, ⟨2, "http://b"⟩] ∨ DistinctIDs [⟨2, "http://b"⟩, ⟨1, "http://a"⟩])
    ∧ ((updateURLs (dbOf [⟨2, "http://b"⟩, ⟨1, "http://a"⟩])
          [⟨1, "http://a"⟩, ⟨2, "http://b"⟩]).assigned = true ↔
        (updateURLs (dbOf [⟨1, "http://a"⟩, ⟨2, "http://b"⟩])
          [⟨2, "http://b"⟩, ⟨1, "http://a"⟩]).assigned = true) :=
  have hd : DistinctIDs [⟨2, "http://b"⟩, ⟨1, "http://a"⟩] := by unfold DistinctIDs; decide
  ⟨Or.inr hd,
    C7_order_independent _ _ [⟨1, "http://a"⟩, ⟨2, "http://b"⟩] [⟨2, "http://b"⟩, ⟨1, "http://a"⟩]
      [⟨2, "http://b"⟩, ⟨1, "http://a"⟩] [⟨1, "http://a"⟩, ⟨2, "http://b"⟩]
      (fetchURLs_dbOf _) (fetchURLs_dbOf _) (List.Perm.swap _ _ _) (List.Perm.swap _ _ _)
      (Or.inr hd)⟩

/-! ## C8 -/

/-- C8: with S the snapshot read after the refresh of the cycle, an empty S
starts no probe and the iteration ends (only the "no URL" line is logged);
otherwise the cycle starts exactly `len(S)` probes, the i-th with the id and
address of the i-th element of S, so the multiset of probed (id, address)
pairs is the multiset of the targets of S. -/
theorem C8_fan_out (db : DB) (a : List URLData) :
    ((updateURLs db a).currentURLs = [] →
      (cycle db a).launched = []
      ∧ (cycle db a).logs = (updateURLs db a).logs ++ [.noURLsWaiting])
    ∧ ((updateURLs db a).currentURLs ≠ [] →
      (cycle db a).logs
        = (updateURLs db a).logs ++ [.startRequests (updateURLs db a).currentURLs.length])
    ∧ (cycle db a).launched.length = (updateURLs db a).currentURLs.length
    ∧ (cycle db a).launched
        = (updateURLs db a).currentURLs.map (fun urlData => ProbeCall.mk urlData.ID urlData.URL)
    ∧ ((cycle db a).launched : Multiset ProbeCall)
        = Multiset.map (fun urlData => ProbeCall.mk urlData.ID urlData.URL)
            ((updateURLs db a).currentURLs : Multiset URLData) := by
  refine ⟨?_, ?_, ?_, cycle_launched db a, ?_⟩
  · intro hs
    simp [cycle, hs]
  · intro hs
    have h0 : ¬ (updateURLs db a).currentURLs.length = 0 := fun e => hs (List.length_eq_zero.1 e)
    simp [cycle, h0]
  · rw [cycle_launched, List.length_map]
  · rw [cycle_launched, Multiset.map_coe]

/-- C8 at an empty snapshot with an empty store, and at held
`[{1,"http://a"}]` with loaded `[{1,"http://a"},{2,"http://b"}]`. -/
theorem C8_fan_out_witness :
    (cycle (dbOf []) []).launched = []
    ∧ (cycle (dbOf [⟨1, "http://a"⟩, ⟨2, "http://b"⟩]) [⟨1, "http://a"⟩]).launched
        = [⟨1, "http://a"⟩, ⟨2, "http://b"⟩] :=
  ⟨((C8_fan_out (dbOf []) []).1 (by decide)).1, by decide⟩

/-! ## C10 -/

theorem updateURLs_snapshot_cases (db : DB) (a : List URLData) :
    (updateURLs db a).currentURLs = a
    ∨ ∃ b, fetchURLs db = .ok b ∧ b ≠ [] ∧ (updateURLs db a).currentURLs = b := by
  cases hs : (updateURLs db a).assigned with
  | false => exact Or.inl (updateURLs_not_assigned_snapshot db a hs)
  | true =>
    cases hf : fetchURLs db with
    | error e => simp [updateURLs_error db a e hf] at hs
    | ok b =>
      exact Or.inr ⟨b, rfl, ((updateURLs_assigned_iff db a b hf).1 hs).1,
        updateURLs_assigned_snapshot db a b hf hs⟩

theorem updateURLs_ne_nil (db : DB) (a : List URLData) (ha : a ≠ []) :
    (updateURLs db a).currentURLs ≠ [] := by
  rcases updateURLs_snapshot_cases db a with h | ⟨b, _, hb, h⟩
  · rw [h]
    exact ha
  · rw [h]
    exact hb

theorem refreshes_ne_nil (dbs : List DB) (a : List URLData) (ha : a ≠ []) :
    refreshes a dbs ≠ [] := by
  induction dbs generalizing a with
  | nil => exact ha
  | cons db rest ih => exact ih _ (updateURLs_ne_nil db a ha)

theorem cycles_ne_nil (dbs : List DB) (a : List URLData) (ha : a ≠ []) :
    cycles a dbs ≠ [] := by
  induction dbs generalizing a with
  | nil => exact ha
  | cons db rest ih =>
    refine ih _ ?_
    show (cycle db a).currentURLs ≠ []
    rw [cycle_currentURLs]
    exact updateURLs_ne_nil db a ha

theorem refreshes_append (a : List URLData) (dbs₁ dbs₂ : List DB) :
    refreshes a (dbs₁ ++ dbs₂) = refreshes (refreshes a dbs₁) dbs₂ := by
  simp [refreshes, List.foldl_append]

theorem cycles_append (a : List URLData) (dbs₁ dbs₂ : List DB) :
    cycles a (dbs₁ ++ dbs₂) = cycles (cycles a dbs₁) dbs₂ := by
  simp [cycles, List.foldl_append]

/-- C10: after a refresh the snapshot is either the held sequence A, or the
loaded sequence B of a successful non-empty load; on an error or an empty load
it is A. Hence over every finite sequence of refreshes (or of ticker
iterations) from any state, once the snapshot is non-empty it stays non-empty,
even when the store answers with the empty sequence from then on. -/
theorem C10_snapshot_never_emptied (db : DB) (a : List URLData) :
    ((updateURLs db a).currentURLs = a
      ∨ ∃ b, fetchURLs db = .ok b ∧ b ≠ [] ∧ (updateURLs db a).currentURLs = b)
    ∧ (∀ e, fetchURLs db = .error e → (updateURLs db a).currentURLs = a)
    ∧ (fetchURLs db = .ok [] → (updateURLs db a).currentURLs = a)
    ∧ (∀ dbs₁ dbs₂ : List DB, refreshes a dbs₁ ≠ [] → refreshes a (dbs₁ ++ dbs₂) ≠ [])
    ∧ (∀ dbs₁ dbs₂ : List DB, cycles a dbs₁ ≠ [] → cycles a (dbs₁ ++ dbs₂) ≠ [])
    ∧ (∀ n : Nat, a ≠ [] → refreshes a (List.replicate n (dbOf [])) = a) := by
  refine ⟨updateURLs_snapshot_cases db a, ?_, ?_, ?_, ?_, ?_⟩
  · intro e he
    rw [updateURLs_error db a e he]
  · intro he
    rw [updateURLs_empty db a he]
  · intro dbs₁ dbs₂ h
    rw [refreshes_append]
    exact refreshes_ne_nil dbs₂ _ h
  · intro dbs₁ dbs₂ h
    rw [cycles_append]
    exact cycles_ne_nil dbs₂ _ h
  · intro n _
    induction n with
    | zero => rfl
    | succ n ih =>
      rw [List.replicate_succ]
      show refreshes (updateURLs (dbOf []) a).currentURLs (List.replicate n (dbOf [])) = a
      rw [updateURLs_empty (dbOf []) a (fetchURLs_dbOf [])]
      exact ih

/-- C10 at held `[{1,"http://a"}]`: a failing query, then an emptied store,
then an emptied store again leave the snapshot as it was. -/
theorem C10_snapshot_never_emptied_witness :
    refreshes [⟨1, "http://a"⟩] [dbDown, dbOf [], dbOf []] = [⟨1, "http://a"⟩]
    ∧ refreshes [⟨1, "http://a"⟩] ([dbDown] ++ [dbOf [], dbOf []]) ≠ [] :=
  ⟨by decide,
    (C10_snapshot_never_emptied dbDown [⟨1, "http://a"⟩]).2.2.2.1 [dbDown] [dbOf [], dbOf []]
      (by decide)⟩

end URLFetcher
